import Mathlib

/-!
Verification of the Big Yellow Jacket security core.

This file gives a shallow embedding, in Lean 4, of the parts of the code that
the verified claims talk about:

* `src/server/src/analyzers/advanced_threat_detector.py`
  (`AdvancedThreatDetector.analyze_packet` and its helper engines),
* `src/server/src/core/alert_system.py`
  (`AlertSystem.create_alert`, the default rules, `resolve_alert`),
* `src/server/src/core/port_blocker.py` (`PortBlocker.block_port`),
* `src/server/src/utils/file_encryption.py`
  (`FileEncryption.encrypt_file` / `decrypt_file`, whose cipher layer is the
  `cryptography` library's Fernet construction).

Python `time.time()` clock readings are embedded as integers (every claim
compares them only against fixed offsets), byte strings as lists of naturals,
decoded text as lists of characters.  Regular-expression searches of
the signature engine are embedded as executable position searches that hold
exactly when the corresponding `re.search` call finds a match.
-/

namespace BYJ

/-! ### Signature engine: executable embeddings of the regex searches

`re.search(pat, s)` succeeds iff `pat` matches at some position of `s`.  The
dot `.` in the patterns (no `re.DOTALL`) matches any character except a
newline; `re.IGNORECASE` is immaterial because `analyze_packet` lower-cases
the decoded payload before matching and every pattern is lower-case. -/

/-- Does `p` hold at some position of the list?  Any characters (newlines
included) may precede the position.  Embeds the anchoring of `re.search`. -/
def searchPos (p : List Char → Bool) : List Char → Bool
  | [] => p []
  | c :: rest => p (c :: rest) || searchPos p rest

/-- Does `p` hold after skipping zero or more non-newline characters from the
current position?  Embeds a `.*?` / `.*` segment followed by the rest of a
pattern. -/
def scanGapP (p : List Char → Bool) : List Char → Bool
  | [] => p []
  | c :: rest => p (c :: rest) || ((c != '\n') && scanGapP p rest)

/-- One of the keywords occurs literally at the current position. -/
def kwAt (kws : List String) (l : List Char) : Bool :=
  kws.any (fun k => k.toList.isPrefixOf l)

/-- Search for `(k1|...)` then `.*?`/`.*` then `(k1'|...)`: some first-group
keyword occurs, and after it, beyond a newline-free gap, some second-group
keyword occurs.  Embeds the two-group alternation patterns. -/
def searchTwo (kws1 kws2 : List String) : List Char → Bool :=
  searchPos (fun l =>
    kws1.any (fun k => k.toList.isPrefixOf l && scanGapP (kwAt kws2) (l.drop k.length)))

/-- Split off the maximal run of leading decimal digits (count, remainder). -/
def digitSplit : List Char → ℕ × List Char
  | [] => (0, [])
  | c :: rest =>
    if c.isDigit then
      let p := digitSplit rest
      (p.1 + 1, p.2)
    else (0, c :: rest)

/-- Split off the maximal run of leading whitespace (count, remainder). -/
def wsSplit : List Char → ℕ × List Char
  | [] => (0, [])
  | c :: rest =>
    if c.isWhitespace then
      let p := wsSplit rest
      (p.1 + 1, p.2)
    else (0, c :: rest)

/-- Consume `\d+\.`: at least one digit then a literal dot. -/
def digitsThenDot (l : List Char) : Option (List Char) :=
  let p := digitSplit l
  if p.1 = 0 then none
  else
    match p.2 with
    | '.' :: r => some r
    | _ => none

/-- The list starts with a decimal digit. -/
def headDigit : List Char → Bool
  | [] => false
  | c :: _ => c.isDigit

/-- `\d+\.\d+\.\d+\.\d+` matches at the current position (the trailing `\d+`
needs only its first digit here, since nothing follows it in the pattern or a
gap absorbs the rest). -/
def ipv4At (l : List Char) : Bool :=
  match ((digitsThenDot l).bind digitsThenDot).bind digitsThenDot with
  | some r => headDigit r
  | none => false

/-- Consume `\d+\.\d+\.\d+\.\d+` at the current position, taking a single
digit for the final `\d+` (sufficient for match existence: the following gap
may absorb further digits). -/
def ipv4Consume (l : List Char) : Option (List Char) :=
  (((digitsThenDot l).bind digitsThenDot).bind digitsThenDot).bind fun r =>
    match r with
    | c :: rest => if c.isDigit then some rest else none
    | [] => none

/-- `(\d+)\s+ports` matches at the current position. -/
def portScanTail (l : List Char) : Bool :=
  let d := digitSplit l
  decide (1 ≤ d.1) &&
    (let w := wsSplit d.2
     decide (1 ≤ w.1) && "ports".toList.isPrefixOf w.2)

/-- `re.search` of `(\d+\.\d+\.\d+\.\d+).*?(\d+)\s+ports`. -/
def portScanMatch : List Char → Bool :=
  searchPos (fun l =>
    match ipv4Consume l with
    | some r => scanGapP portScanTail r
    | none => false)

/-- `re.search` of `Failed password.*?(\d+\.\d+\.\d+\.\d+)` on the lower-cased
payload (15 = length of "failed password"). -/
def bruteForceMatch : List Char → Bool :=
  searchPos (fun l => "failed password".toList.isPrefixOf l && scanGapP ipv4At (l.drop 15))

/-- `re.search` of `(union|select|insert|delete|drop|update).*?(from|into|where)`. -/
def sqlInjectionMatch : List Char → Bool :=
  searchTwo ["union", "select", "insert", "delete", "drop", "update"] ["from", "into", "where"]

/-- `re.search` of `<script.*?>.*?</script>|<img.*?onerror|javascript:`. -/
def xssMatch : List Char → Bool :=
  searchPos (fun l =>
    ("<script".toList.isPrefixOf l &&
      scanGapP (fun r =>
        match r with
        | '>' :: r2 => scanGapP (fun r3 => "</script>".toList.isPrefixOf r3) r2
        | _ => false) (l.drop 7)) ||
    ("<img".toList.isPrefixOf l &&
      scanGapP (fun r => "onerror".toList.isPrefixOf r) (l.drop 4)) ||
    "javascript:".toList.isPrefixOf l)

/-- `re.search` of `\.\./|\.\.\\|%2e%2e%2f|%2e%2e%5c` (plain substrings). -/
def dirTraversalMatch : List Char → Bool :=
  searchPos (kwAt ["../", "..\\", "%2e%2e%2f", "%2e%2e%5c"])

/-- `re.search` of `(\||&|;|\$\(|\x60).*(ls|cat|whoami|id|pwd|ps|netstat)`
(the first group's last alternative is a backtick, written `\x60`). -/
def cmdInjectionMatch : List Char → Bool :=
  searchTwo ["|", "&", ";", "$(", "\x60"] ["ls", "cat", "whoami", "id", "pwd", "ps", "netstat"]

/-- The sample SQL-injection substring from the spec,
`"union select * from users"`. -/
def sqlNeedle : List Char := "union select * from users".toList

/-- `AdvancedThreatDetector._get_severity_score`: the fixed severity table;
unknown labels score 0 (`scores.get(severity, 0)`). -/
def severityScore : String → ℕ
  | "low" => 10
  | "medium" => 25
  | "high" => 50
  | "critical" => 100
  | _ => 0

/-- One finding, as the threat dictionaries built by `analyze_packet` and its
helpers (`type`, `severity`, `description`, `src_ip`, optional `dst_ip`,
`confidence`; the wall-clock `timestamp` string is omitted). -/
structure Threat where
  ttype : String
  severity : String
  description : String
  srcIp : String
  dstIp : Option String
  confidence : ℚ
deriving DecidableEq

/-- One entry of `AdvancedThreatDetector.threat_patterns`. -/
structure SigRule where
  name : String
  matcher : List Char → Bool
  severity : String
  descr : String

/-- `AdvancedThreatDetector.threat_patterns`, in dictionary (insertion) order. -/
def threatPatterns : List SigRule :=
  [⟨"port_scan", portScanMatch, "medium", "Port scanning detected"⟩,
   ⟨"brute_force", bruteForceMatch, "high", "Brute force attack detected"⟩,
   ⟨"sql_injection", sqlInjectionMatch, "critical", "SQL injection attempt detected"⟩,
   ⟨"xss_attack", xssMatch, "high", "XSS attack detected"⟩,
   ⟨"directory_traversal", dirTraversalMatch, "medium", "Directory traversal attempt detected"⟩,
   ⟨"command_injection", cmdInjectionMatch, "critical", "Command injection attempt detected"⟩]

/-- The findings appended by the pattern loop of `analyze_packet`. -/
def sigThreats (pstr : List Char) (srcIp dstIp : String) : List Threat :=
  threatPatterns.filterMap fun r =>
    if r.matcher pstr then some ⟨r.name, r.severity, r.descr, srcIp, some dstIp, 9/10⟩ else none

/-- The `risk_score` accumulated by the pattern loop of `analyze_packet`:
the sum of the severity scores of the matching signature rules. -/
def sigScore (pstr : List Char) : ℕ :=
  ((threatPatterns.filter fun r => r.matcher pstr).map fun r => severityScore r.severity).sum

/-- Mutable state of `AdvancedThreatDetector` read by `analyze_packet`:
`threat_intel['malicious_ips']`, `suspicious_ips`, `connection_frequency`. -/
structure Detector where
  maliciousIps : List String
  suspiciousIps : String → ℕ
  connFreq : String → List ℤ

/-- `thresholds['max_connections_per_minute']` (default 100). -/
def maxConnectionsPerMinute : ℕ := 100

/-- The `connection_flooding` finding of `_analyze_behavior`. -/
def floodThreat (srcIp : String) (recent : ℕ) : Threat :=
  ⟨"connection_flooding", "high",
    "Connection flooding detected: " ++ toString recent ++ " connections/min",
    srcIp, none, 8/10⟩

/-- The `port_scanning` finding of `_analyze_behavior`. -/
def scanThreat (srcIp : String) : Threat :=
  ⟨"port_scanning", "medium", "Port scanning behavior detected", srcIp, none, 7/10⟩

/-- `AdvancedThreatDetector._detect_port_scanning` on the already-pruned
window: fewer than 10 entries is never a scan, otherwise more than 20 is. -/
def detectPortScanning (freq : List ℤ) : Bool :=
  if freq.length < 10 then false else decide (freq.length > 20)

/-- `AdvancedThreatDetector._analyze_behavior`: append `now` to the source's
window, prune entries older than 3600 s, flag flooding when the count of the
last minute exceeds the threshold, flag scanning per the heuristic.  Returns
the findings and the detector with the updated window.  (`dst_ip`,
`src_port`, `dst_port` are accepted and ignored, as in the code.) -/
def analyzeBehavior (det : Detector) (srcIp : String) (_dstIp : String)
    (_srcPort _dstPort : ℕ) (now : ℤ) : List Threat × Detector :=
  let upd := ((det.connFreq srcIp) ++ [now]).filter fun t => decide (t > now - 3600)
  let det' := { det with connFreq := fun ip => if ip = srcIp then upd else det.connFreq ip }
  let recent := (upd.filter fun t => decide (t > now - 60)).length
  ((if maxConnectionsPerMinute < recent then [floodThreat srcIp recent] else []) ++
    (if detectPortScanning upd then [scanThreat srcIp] else []), det')

/-- `AdvancedThreatDetector._check_ip_reputation`. -/
def checkIpReputation (det : Detector) (srcIp _dstIp : String) : List Threat :=
  (if srcIp ∈ det.maliciousIps then
    [⟨"malicious_ip", "critical", "Connection from known malicious IP", srcIp, none, 95/100⟩]
   else []) ++
  (if 3 < det.suspiciousIps srcIp then
    [⟨"suspicious_ip", "medium", "IP showing suspicious behavior patterns", srcIp, none, 6/10⟩]
   else [])

/-- The number of window entries of the last minute counted by
`_analyze_behavior` at the moment of the current observation: the source's
window with `now` appended and entries older than 3600 s pruned, restricted
to entries newer than `now - 60`. -/
def recentCount (det : Detector) (srcIp : String) (now : ℤ) : ℕ :=
  ((((det.connFreq srcIp) ++ [now]).filter fun t => decide (t > now - 3600)).filter
    fun t => decide (t > now - 60)).length

/-- `ClassificationResult`: the dictionary returned by `analyze_packet`
(`timestamp` kept as the clock rational). -/
structure AnalysisResult where
  threats : List Threat
  riskScore : ℕ
  srcIp : String
  dstIp : String
  timestamp : ℤ
deriving DecidableEq

/-- `AdvancedThreatDetector.analyze_packet`.  `packet` is the text obtained by
the permissive utf-8 decode of the payload; the code then lower-cases it,
collects signature, behavioral and reputation findings, and clamps the
signature score at 100.  Returns the result and the updated detector. -/
def analyzePacket (det : Detector) (packet : List Char) (srcIp dstIp : String)
    (srcPort dstPort : ℕ) (now : ℤ) : AnalysisResult × Detector :=
  let pstr := packet.map Char.toLower
  let sig := sigThreats pstr srcIp dstIp
  let behav := analyzeBehavior det srcIp dstIp srcPort dstPort now
  let rep := checkIpReputation behav.2 srcIp dstIp
  ({ threats := sig ++ behav.1 ++ rep, riskScore := min (sigScore pstr) 100,
     srcIp := srcIp, dstIp := dstIp, timestamp := now }, behav.2)

/-! ### Alert system (`src/server/src/core/alert_system.py`)

`AlertSystem` state is embedded as the alert registry (an insertion-ordered
association list, like a Python dict), the append-only history, and the
statistics counters (Python ints, so `ℤ`).  The default rule registry set up
by `_setup_default_rules` is fixed, so `_process_alert`'s loop over it is
inlined; the clock reading `int(time.time()*1000)` used by
`_generate_alert_id` is an explicit parameter `nowMs`, and the nested
`create_alert` issued by `_auto_block_ip` runs at the same millisecond.
`create_alert`'s recursion through rule actions is given a fuel parameter
(`none` = fuel exhausted); fuel 2 is proved sufficient below. -/

inductive AlertSeverity
  | low
  | medium
  | high
  | critical
deriving DecidableEq

inductive AlertType
  | threat_detected
  | ip_blocked
  | system_anomaly
  | security_breach
  | performance_issue
  | configuration_change
deriving DecidableEq

/-- The `Alert` object (timestamps and `auto_resolved` omitted: no verified
claim mentions them). -/
structure Alert where
  id : String
  atype : AlertType
  severity : AlertSeverity
  title : String
  description : String
  sourceIp : Option String
  targetIp : Option String
  metadata : List (String × String)
  acknowledged : Bool
  resolved : Bool
deriving DecidableEq

/-- `AlertSystem.stats` (Python ints). -/
structure AlertStats where
  totalAlerts : ℤ
  criticalAlerts : ℤ
  resolvedAlerts : ℤ
  activeAlerts : ℤ
deriving DecidableEq

structure AlertSystem where
  alerts : List (String × Alert)
  history : List Alert
  stats : AlertStats
deriving DecidableEq

def AlertSystem.empty : AlertSystem := ⟨[], [], ⟨0, 0, 0, 0⟩⟩

/-- Python dict assignment `d[k] = v`: replace in place when the key exists,
else append. -/
def dictInsert (l : List (String × Alert)) (k : String) (v : Alert) :
    List (String × Alert) :=
  if l.any fun p => p.1 == k then l.map fun p => if p.1 == k then (k, v) else p
  else l ++ [(k, v)]

def dictLookup (l : List (String × Alert)) (k : String) : Option Alert :=
  (l.find? fun p => p.1 == k).map Prod.snd

/-- `AlertSystem._generate_alert_id`: `f"ALERT_{int(time.time() * 1000)}"`,
with `nowMs` the millisecond clock reading. -/
def mkAlertId (nowMs : ℕ) : String := "ALERT_" ++ toString nowMs

/-- Python truthiness of `alert.source_ip` (`None` and `""` are falsy). -/
def truthySource : Option String → Bool
  | none => false
  | some s => s != ""

/-- The storage step of `create_alert`: register the alert under its id
(a dict assignment), append it to the history, and update the statistics
counters (`total_alerts`, `critical_alerts` for critical severity,
`active_alerts`). -/
def storeAlert (st : AlertSystem) (a : Alert) : AlertSystem :=
  { alerts := dictInsert st.alerts a.id a
    history := st.history ++ [a]
    stats :=
      { totalAlerts := st.stats.totalAlerts + 1
        criticalAlerts :=
          st.stats.criticalAlerts + (if a.severity = AlertSeverity.critical then 1 else 0)
        resolvedAlerts := st.stats.resolvedAlerts
        activeAlerts := st.stats.activeAlerts + 1 } }

/-- The secondary alert synthesized by `_auto_block_ip` for source `ip` (the
reason passed by `_handle_critical_alert` is `"Critical threat detected"`). -/
def autoBlockAlert (ip : String) (nowMs : ℕ) : Alert :=
  ⟨mkAlertId nowMs, AlertType.ip_blocked, AlertSeverity.high,
    "IP " ++ ip ++ " Auto-Blocked",
    "IP " ++ ip ++ " was automatically blocked due to: Critical threat detected",
    some ip, none, [("auto_blocked", "true"), ("reason", "Critical threat detected")],
    false, false⟩

/-- `AlertSystem.create_alert`, with the default rule registry inlined.
Builds the alert with a time-derived id, stores it in the registry and the
history, bumps the counters, then evaluates the rules in registration order:

1. "Critical Threat Detection" (condition: severity is critical; action:
   `_handle_critical_alert`, which calls `_auto_block_ip` — and thereby
   `create_alert` again — when the alert has a truthy source ip and type
   `THREAT_DETECTED`);
2. "IP Blocking Alert" (condition: type is `IP_BLOCKED`; action logs only);
3. "High Severity Alert" (condition: severity is high; action logs only).

The fuel bounds the recursion through `_auto_block_ip`; `none` means the fuel
ran out before the call completed. -/
def createAlertAux : ℕ → AlertSystem → AlertType → AlertSeverity → String → String →
    Option String → Option String → List (String × String) → ℕ →
    Option (AlertSystem × Alert)
  | 0, _, _, _, _, _, _, _, _, _ => none
  | fuel + 1, st, ty, sev, title, desc, src, tgt, meta, nowMs =>
    let a : Alert := ⟨mkAlertId nowMs, ty, sev, title, desc, src, tgt, meta, false, false⟩
    let st1 : AlertSystem := storeAlert st a
    let afterRule1 : Option AlertSystem :=
      if sev = AlertSeverity.critical then
        if truthySource src && (ty == AlertType.threat_detected) then
          let ip := src.getD ""
          (createAlertAux fuel st1 AlertType.ip_blocked AlertSeverity.high
            ("IP " ++ ip ++ " Auto-Blocked")
            ("IP " ++ ip ++ " was automatically blocked due to: Critical threat detected")
            (some ip) none
            [("auto_blocked", "true"), ("reason", "Critical threat detected")] nowMs).map
            Prod.fst
        else some st1
      else some st1
    afterRule1.map fun st2 => (st2, a)

/-- `AlertSystem.create_alert` with the fuel fixed at 2 (proved sufficient). -/
def createAlert (st : AlertSystem) (ty : AlertType) (sev : AlertSeverity)
    (title desc : String) (src tgt : Option String) (meta : List (String × String))
    (nowMs : ℕ) : Option (AlertSystem × Alert) :=
  createAlertAux 2 st ty sev title desc src tgt meta nowMs

/-- `AlertSystem.resolve_alert`: when the id is registered, set the resolved
flag (with no check of its previous value), bump the resolved counter and
decrement the active counter, and return `True`; otherwise return `False`. -/
def resolveAlert (st : AlertSystem) (aid : String) : Bool × AlertSystem :=
  match dictLookup st.alerts aid with
  | some a =>
    (true,
      { st with
          alerts := dictInsert st.alerts aid { a with resolved := true }
          stats :=
            { st.stats with
                resolvedAlerts := st.stats.resolvedAlerts + 1
                activeAlerts := st.stats.activeAlerts - 1 } })
  | none => (false, st)

/-! ### Port blocker (`src/server/src/core/port_blocker.py`) -/

/-- `PortBlocker.always_allow`. -/
def alwaysAllow : List ℕ :=
  [443, 22, 993, 995, 3389, 5900, 587, 465, 636, 989, 990, 5173, 8766, 3000, 5000, 8080, 8000]

/-- `PortBlocker.always_block`. -/
def alwaysBlock : List ℕ := [80, 21, 23, 25, 53, 110, 143, 161, 389, 445]

/-- The persisted blocked-port list (the decrypted content of
`data/blocked_ports.txt.encrypted`, one port per line). -/
structure PortBlockerState where
  blockedPorts : List ℕ
deriving DecidableEq

/-- `PortBlocker.block_port`: a port on the always-allow list is rejected
before any state is touched; otherwise the port is appended to the persisted
list (if absent) and the OS-level block (external, unmodeled) is applied. -/
def blockPort (st : PortBlockerState) (port : ℕ) : Bool × PortBlockerState :=
  if port ∈ alwaysAllow then (false, st)
  else
    let bp := st.blockedPorts
    (true, ⟨if port ∈ bp then bp else bp ++ [port]⟩)

/-! ### File encryption (`src/server/src/utils/file_encryption.py`)

`FileEncryption.encrypt_file` reads the file bytes and passes them to
`self.cipher.encrypt`; `decrypt_file` passes the encrypted bytes to
`self.cipher.decrypt`, where `self.cipher` is the `cryptography` library's
`Fernet` with a fixed derived key.  The cipher layer is not repository code,
so it is modelled from the spec (the published Fernet token format): a token
is a version byte `0x80`, 8 timestamp bytes, a 16-byte IV, the AES-128-CBC
ciphertext of the PKCS7-padded plaintext, and 32 bytes of HMAC-SHA256 over
everything before; decryption verifies version, HMAC and block alignment,
then CBC-decrypts and unpads.  The AES block permutation and the HMAC are
abstract parameters (`E`, `D`, `mac`); bytes are naturals. -/

/-- PKCS7 padding length for an `n`-byte message, block size 16 — always
between 1 and 16. -/
def padLen (n : ℕ) : ℕ := 16 - n % 16

/-- PKCS7 padding: append `padLen` copies of the byte `padLen`. -/
def pkcs7Pad (msg : List ℕ) : List ℕ :=
  msg ++ List.replicate (padLen msg.length) (padLen msg.length)

/-- PKCS7 unpadding: the last byte `n` must lie in `[1, 16]`, the data must
hold at least `n` bytes, and the last `n` bytes must all equal `n`. -/
def pkcs7Unpad (l : List ℕ) : Option (List ℕ) :=
  match l.getLast? with
  | none => none
  | some n =>
    if 1 ≤ n ∧ n ≤ 16 ∧ n ≤ l.length ∧ (l.drop (l.length - n)).all (· = n) then
      some (l.take (l.length - n))
    else none

/-- Split a byte string into 16-byte blocks. -/
def chunk16 (l : List ℕ) : List (List ℕ) :=
  if h : l = [] then [] else l.take 16 :: chunk16 (l.drop 16)
termination_by l.length
decreasing_by
  have hp : 0 < l.length := List.length_pos.mpr h
  simp only [List.length_drop]
  omega

/-- Pointwise xor of two equal-length byte blocks. -/
def xorB (a b : List ℕ) : List ℕ := List.zipWith (· ^^^ ·) a b

/-- CBC encryption of a block sequence under block cipher `E`, chaining from
`prev` (initially the IV). -/
def cbcEnc (E : List ℕ → List ℕ) (prev : List ℕ) : List (List ℕ) → List (List ℕ)
  | [] => []
  | b :: bs =>
    let c := E (xorB prev b)
    c :: cbcEnc E c bs

/-- CBC decryption under the block-cipher inverse `D`. -/
def cbcDec (D : List ℕ → List ℕ) (prev : List ℕ) : List (List ℕ) → List (List ℕ)
  | [] => []
  | c :: cs => xorB prev (D c) :: cbcDec D c cs

/-- Modelled from the spec: the Fernet token produced for file content `msg`
by `FileEncryption.encrypt_file` (missing from `src/`: the `cryptography`
library's `Fernet.encrypt`). -/
def fernetEncrypt (E : List ℕ → List ℕ) (mac : List ℕ → List ℕ)
    (ts iv : List ℕ) (msg : List ℕ) : List ℕ :=
  let ct := (cbcEnc E iv (chunk16 (pkcs7Pad msg))).flatten
  let body := 128 :: (ts ++ (iv ++ ct))
  body ++ mac body

/-- Modelled from the spec: Fernet token decryption as performed by
`FileEncryption.decrypt_file` (missing from `src/`: the `cryptography`
library's `Fernet.decrypt`) — length and version checks, MAC verification,
block-aligned CBC decryption, PKCS7 unpadding; any failure yields `none`. -/
def fernetDecrypt (D : List ℕ → List ℕ) (mac : List ℕ → List ℕ)
    (tok : List ℕ) : Option (List ℕ) :=
  if tok.length < 57 then none
  else
    let body := tok.take (tok.length - 32)
    let tag := tok.drop (tok.length - 32)
    if tag ≠ mac body then none
    else if body.take 1 ≠ [128] then none
    else
      let iv := (body.drop 9).take 16
      let ct := body.drop 25
      if ct.length % 16 ≠ 0 ∨ ct.length = 0 then none
      else pkcs7Unpad (cbcDec D iv (chunk16 ct)).flatten

/-! ## Theorems -/

/-- C2: For every payload and every detector state, the risk score returned by
`analyze_packet` lies in the interval [0, 100]. -/
theorem c2_risk_score_in_range (det : Detector) (packet : List Char)
    (srcIp dstIp : String) (srcPort dstPort : ℕ) (now : ℤ) :
    0 ≤ (analyzePacket det packet srcIp dstIp srcPort dstPort now).1.riskScore ∧
      (analyzePacket det packet srcIp dstIp srcPort dstPort now).1.riskScore ≤ 100 :=
  ⟨Nat.zero_le _, Nat.min_le_right _ _⟩

/-- C6: Blocking a port of the always-allow list returns failure and leaves
the blocked list and all persisted state unchanged. -/
theorem c6_always_allow_block_rejected (st : PortBlockerState) (port : ℕ)
    (h : port ∈ alwaysAllow) : blockPort st port = (false, st) := by
  simp [blockPort, h]

/-- Witness for C6 at port 443. -/
theorem c6_always_allow_block_rejected_witness :
    (443 : ℕ) ∈ alwaysAllow ∧ blockPort ⟨[22]⟩ 443 = (false, ⟨[22]⟩) :=
  ⟨by decide, c6_always_allow_block_rejected ⟨[22]⟩ 443 (by decide)⟩

/-- Looking up a key right after a dict assignment of that key yields the
assigned value. -/
theorem dictLookup_dictInsert (l : List (String × Alert)) (k : String) (v : Alert) :
    dictLookup (dictInsert l k v) k = some v := by
  unfold dictInsert dictLookup
  by_cases hany : (l.any fun p => p.1 == k) = true
  · rw [if_pos hany]
    induction l with
    | nil => simp at hany
    | cons p rest ih =>
      by_cases hp : (p.1 == k) = true
      · simp [hp, List.find?]
      · have h' : (rest.any fun p => p.1 == k) = true := by
          simpa [List.any_cons, hp] using hany
        simpa [hp, List.find?] using ih h'
  · rw [if_neg hany]
    induction l with
    | nil => simp [List.find?]
    | cons p rest ih =>
      have hp : (p.1 == k) = false := by
        by_contra hc
        exact hany (by simp [List.any_cons, eq_true_of_ne_false (fun hf => hc hf)])
      have h' : ¬(rest.any fun p => p.1 == k) = true := by
        intro hr
        exact hany (by simp [List.any_cons, hr])
      simpa [hp, List.find?] using ih h'

/-- One successful `resolve_alert` step, written out. -/
theorem resolveAlert_of_lookup (st : AlertSystem) (aid : String) (a : Alert)
    (ha : dictLookup st.alerts aid = some a) :
    resolveAlert st aid =
      (true,
        { st with
            alerts := dictInsert st.alerts aid { a with resolved := true }
            stats :=
              { st.stats with
                  resolvedAlerts := st.stats.resolvedAlerts + 1
                  activeAlerts := st.stats.activeAlerts - 1 } }) := by
  unfold resolveAlert
  rw [ha]

/-- C10: `resolve_alert` is not guarded by the resolved flag: on a registered
id it always returns true, bumps the resolved counter and decrements the
active counter — so a second resolve of the same id decrements it again and
the active counter can go below zero. -/
theorem c10_resolve_unguarded (st : AlertSystem) (aid : String)
    (h : (dictLookup st.alerts aid).isSome = true) :
    (resolveAlert st aid).1 = true ∧
      (resolveAlert (resolveAlert st aid).2 aid).1 = true ∧
      (resolveAlert st aid).2.stats.resolvedAlerts = st.stats.resolvedAlerts + 1 ∧
      (resolveAlert st aid).2.stats.activeAlerts = st.stats.activeAlerts - 1 ∧
      (resolveAlert (resolveAlert st aid).2 aid).2.stats.resolvedAlerts
        = st.stats.resolvedAlerts + 2 ∧
      (resolveAlert (resolveAlert st aid).2 aid).2.stats.activeAlerts
        = st.stats.activeAlerts - 2 := by
  obtain ⟨a, ha⟩ := Option.isSome_iff_exists.mp h
  have h1 := resolveAlert_of_lookup st aid a ha
  have h2 : dictLookup (resolveAlert st aid).2.alerts aid
      = some { a with resolved := true } := by
    rw [h1]
    exact dictLookup_dictInsert st.alerts aid { a with resolved := true }
  have h3 := resolveAlert_of_lookup (resolveAlert st aid).2 aid
    { a with resolved := true } h2
  refine ⟨by rw [h1], by rw [h3], by rw [h1], by rw [h1], ?_, ?_⟩
  · rw [h3]
    simp only [h1]
    omega
  · rw [h3]
    simp only [h1]
    omega

/-- Witness for C10: a registry holding one active alert (`active = 1`);
after two resolves of the same id the active counter reaches −1. -/
theorem c10_resolve_unguarded_witness :
    (resolveAlert (resolveAlert (AlertSystem.mk
        [("ALERT_1", ⟨"ALERT_1", AlertType.threat_detected, AlertSeverity.low, "t", "d",
          none, none, [], false, false⟩)]
        [⟨"ALERT_1", AlertType.threat_detected, AlertSeverity.low, "t", "d",
          none, none, [], false, false⟩]
        ⟨1, 0, 0, 1⟩) "ALERT_1").2 "ALERT_1").2.stats.activeAlerts = -1 := by
  have h := c10_resolve_unguarded (AlertSystem.mk
    [("ALERT_1", ⟨"ALERT_1", AlertType.threat_detected, AlertSeverity.low, "t", "d",
      none, none, [], false, false⟩)]
    [⟨"ALERT_1", AlertType.threat_detected, AlertSeverity.low, "t", "d",
      none, none, [], false, false⟩]
    ⟨1, 0, 0, 1⟩) "ALERT_1" (by decide)
  rw [h.2.2.2.2.2]
  decide

/-- The findings list of `_analyze_behavior`, written out. -/
theorem analyzeBehavior_fst (det : Detector) (srcIp dstIp : String)
    (srcPort dstPort : ℕ) (now : ℤ) :
    (analyzeBehavior det srcIp dstIp srcPort dstPort now).1
      = (if maxConnectionsPerMinute < recentCount det srcIp now
          then [floodThreat srcIp (recentCount det srcIp now)] else []) ++
        (if detectPortScanning (((det.connFreq srcIp) ++ [now]).filter
            fun t => decide (t > now - 3600)) then [scanThreat srcIp] else []) := rfl

/-- C5: with 101 window entries inside the last minute at the moment of the
observation, `_analyze_behavior` emits a `connection_flooding` finding of
severity high; with 99 it emits none (the threshold is strict: more than
100 per minute). -/
theorem c5_flooding_threshold (det : Detector) (srcIp dstIp : String)
    (srcPort dstPort : ℕ) (now : ℤ) :
    (recentCount det srcIp now = 101 →
      floodThreat srcIp 101 ∈ (analyzeBehavior det srcIp dstIp srcPort dstPort now).1 ∧
        (floodThreat srcIp 101).severity = "high") ∧
    (recentCount det srcIp now = 99 →
      ∀ t ∈ (analyzeBehavior det srcIp dstIp srcPort dstPort now).1,
        t.ttype ≠ "connection_flooding") := by
  constructor
  · intro h
    refine ⟨?_, rfl⟩
    rw [analyzeBehavior_fst, h]
    have h100 : maxConnectionsPerMinute < 101 := by decide
    rw [if_pos h100]
    exact List.mem_append_left _ (List.mem_singleton_self _)
  · intro h t ht
    rw [analyzeBehavior_fst, h] at ht
    have h100 : ¬ maxConnectionsPerMinute < 99 := by decide
    rw [if_neg h100, List.nil_append] at ht
    split at ht
    · rw [List.mem_singleton] at ht
      subst ht
      exact (by decide : ("port_scanning" : String) ≠ "connection_flooding")
    · simp at ht

/-- Witness for C5: a window of 100 old entries at time 0 plus the current
observation gives 101 recent entries and a flooding finding; 98 plus the
current gives 99 and none. -/
theorem c5_flooding_threshold_witness :
    (recentCount ⟨[], fun _ => 0, fun _ => List.replicate 100 (0 : ℤ)⟩ "s" 0 = 101 ∧
      floodThreat "s" 101 ∈
        (analyzeBehavior ⟨[], fun _ => 0, fun _ => List.replicate 100 (0 : ℤ)⟩
          "s" "d" 1 2 0).1) ∧
    (recentCount ⟨[], fun _ => 0, fun _ => List.replicate 98 (0 : ℤ)⟩ "s" 0 = 99 ∧
      ∀ t ∈ (analyzeBehavior ⟨[], fun _ => 0, fun _ => List.replicate 98 (0 : ℤ)⟩
          "s" "d" 1 2 0).1,
        t.ttype ≠ "connection_flooding") :=
  ⟨⟨by decide,
    ((c5_flooding_threshold ⟨[], fun _ => 0, fun _ => List.replicate 100 (0 : ℤ)⟩
      "s" "d" 1 2 0).1 (by decide)).1⟩,
   ⟨by decide,
    (c5_flooding_threshold ⟨[], fun _ => 0, fun _ => List.replicate 98 (0 : ℤ)⟩
      "s" "d" 1 2 0).2 (by decide)⟩⟩

/-- A `create_alert` call whose alert does not meet the auto-block guard
(critical severity, truthy source, type THREAT_DETECTED) performs no nested
create: any positive fuel returns the stored state. -/
theorem createAlertAux_simple (f : ℕ) (st : AlertSystem) (ty : AlertType)
    (sev : AlertSeverity) (title desc : String) (src tgt : Option String)
    (meta : List (String × String)) (nowMs : ℕ)
    (h : sev = AlertSeverity.critical →
      (truthySource src && (ty == AlertType.threat_detected)) = false) :
    createAlertAux (f + 1) st ty sev title desc src tgt meta nowMs
      = some
          (storeAlert st ⟨mkAlertId nowMs, ty, sev, title, desc, src, tgt, meta, false, false⟩,
            ⟨mkAlertId nowMs, ty, sev, title, desc, src, tgt, meta, false, false⟩) := by
  by_cases hs : sev = AlertSeverity.critical
  · simp [createAlertAux, hs, h hs]
  · simp [createAlertAux, hs]

/-- A `create_alert` call that does meet the auto-block guard performs exactly
one nested create — of the `IP_BLOCKED`/high auto-block alert, which does not
meet the guard again — for any fuel of at least 2. -/
theorem createAlertAux_trigger (f : ℕ) (st : AlertSystem) (title desc : String)
    (src : String) (tgt : Option String) (meta : List (String × String)) (nowMs : ℕ)
    (hsrc : src ≠ "") :
    createAlertAux (f + 2) st AlertType.threat_detected AlertSeverity.critical title desc
        (some src) tgt meta nowMs
      = some
          (storeAlert
            (storeAlert st
              ⟨mkAlertId nowMs, AlertType.threat_detected, AlertSeverity.critical,
                title, desc, some src, tgt, meta, false, false⟩)
            (autoBlockAlert src nowMs),
           ⟨mkAlertId nowMs, AlertType.threat_detected, AlertSeverity.critical,
              title, desc, some src, tgt, meta, false, false⟩) := by
  have hbne : (src != "") = true := bne_iff_ne.mpr hsrc
  have hinner := createAlertAux_simple f
    (storeAlert st
      ⟨mkAlertId nowMs, AlertType.threat_detected, AlertSeverity.critical,
        title, desc, some src, tgt, meta, false, false⟩)
    AlertType.ip_blocked AlertSeverity.high
    ("IP " ++ src ++ " Auto-Blocked")
    ("IP " ++ src ++ " was automatically blocked due to: Critical threat detected")
    (some src) none [("auto_blocked", "true"), ("reason", "Critical threat detected")]
    nowMs (by intro hc; exact absurd hc (by decide))
  show createAlertAux (f + 1 + 1) st AlertType.threat_detected AlertSeverity.critical
      title desc (some src) tgt meta nowMs = _
  rw [createAlertAux]
  simp only [truthySource, hbne, beq_self_eq_true, Bool.and_self, eq_self_iff_true,
    if_true, ite_true, Option.getD_some]
  rw [hinner]
  rfl

/-- C4: every `create_alert` call terminates: the only rule action that
creates an alert synthesizes an `IP_BLOCKED`/high alert, which cannot meet
the critical-threat auto-block guard again, so the cascade has depth at most
one — fuel 2 always succeeds and more fuel changes nothing. -/
theorem c4_create_alert_terminates (st : AlertSystem) (ty : AlertType)
    (sev : AlertSeverity) (title desc : String) (src tgt : Option String)
    (meta : List (String × String)) (nowMs : ℕ) :
    (createAlertAux 2 st ty sev title desc src tgt meta nowMs).isSome = true ∧
      ∀ k, createAlertAux (2 + k) st ty sev title desc src tgt meta nowMs
        = createAlertAux 2 st ty sev title desc src tgt meta nowMs := by
  by_cases htrig : sev = AlertSeverity.critical ∧
      (truthySource src && (ty == AlertType.threat_detected)) = true
  · obtain ⟨hs, hg⟩ := htrig
    rw [Bool.and_eq_true] at hg
    obtain ⟨hsrc, hty⟩ := hg
    obtain ⟨s, rfl⟩ : ∃ s, src = some s := by
      cases src with
      | none => simp [truthySource] at hsrc
      | some s => exact ⟨s, rfl⟩
    have hs' : s ≠ "" := by simpa [truthySource] using hsrc
    have hty' : ty = AlertType.threat_detected := by
      simpa using hty
    subst hs hty'
    constructor
    · rw [show (2 : ℕ) = 0 + 2 from rfl, createAlertAux_trigger 0 st title desc s tgt meta nowMs hs']
      rfl
    · intro k
      rw [show (2 : ℕ) + k = k + 2 by omega, createAlertAux_trigger k st title desc s tgt meta nowMs hs',
        show (2 : ℕ) = 0 + 2 from rfl, createAlertAux_trigger 0 st title desc s tgt meta nowMs hs']
  · have h : sev = AlertSeverity.critical →
        (truthySource src && (ty == AlertType.threat_detected)) = false := by
      intro hs
      by_contra hb
      exact htrig ⟨hs, by simpa using hb⟩
    constructor
    · rw [show (2 : ℕ) = 1 + 1 from rfl, createAlertAux_simple 1 st ty sev title desc src tgt meta nowMs h]
      rfl
    · intro k
      rw [show (2 : ℕ) + k = (k + 1) + 1 by omega,
        createAlertAux_simple (k + 1) st ty sev title desc src tgt meta nowMs h,
        show (2 : ℕ) = 1 + 1 from rfl,
        createAlertAux_simple 1 st ty sev title desc src tgt meta nowMs h]

/-- C3: creating a critical `THREAT_DETECTED` alert with a non-empty source
causes exactly one additional `IP_BLOCKED` alert to be created in the same
call, carrying the same source identifier. -/
theorem c3_critical_threat_auto_block (st : AlertSystem) (title desc : String)
    (src : String) (tgt : Option String) (meta : List (String × String)) (nowMs : ℕ)
    (hsrc : src ≠ "") :
    ∃ st' a,
      createAlert st AlertType.threat_detected AlertSeverity.critical title desc (some src)
          tgt meta nowMs = some (st', a) ∧
        ((st'.history.drop st.history.length).filter
            fun b => b.atype == AlertType.ip_blocked).length = 1 ∧
        ∀ b ∈ st'.history.drop st.history.length,
          b.atype = AlertType.ip_blocked → b.sourceIp = some src := by
  refine ⟨_, _, createAlertAux_trigger 0 st title desc src tgt meta nowMs hsrc, ?_, ?_⟩
  · rw [show (storeAlert
        (storeAlert st
          ⟨mkAlertId nowMs, AlertType.threat_detected, AlertSeverity.critical,
            title, desc, some src, tgt, meta, false, false⟩)
        (autoBlockAlert src nowMs)).history
      = st.history ++
          ([⟨mkAlertId nowMs, AlertType.threat_detected, AlertSeverity.critical,
            title, desc, some src, tgt, meta, false, false⟩] ++
          [autoBlockAlert src nowMs]) by
        simp [storeAlert], List.drop_left]
    rfl
  · intro b hb
    rw [show (storeAlert
        (storeAlert st
          ⟨mkAlertId nowMs, AlertType.threat_detected, AlertSeverity.critical,
            title, desc, some src, tgt, meta, false, false⟩)
        (autoBlockAlert src nowMs)).history
      = st.history ++
          ([⟨mkAlertId nowMs, AlertType.threat_detected, AlertSeverity.critical,
            title, desc, some src, tgt, meta, false, false⟩] ++
          [autoBlockAlert src nowMs]) by
        simp [storeAlert], List.drop_left] at hb
    simp only [List.mem_append, List.mem_singleton] at hb
    rcases hb with hb | hb
    · subst hb
      intro hty
      simp at hty
    · subst hb
      intro _
      rfl

/-- Witness for C3 at a concrete system and source. -/
theorem c3_critical_threat_auto_block_witness :
    ∃ st' a,
      createAlert AlertSystem.empty AlertType.threat_detected AlertSeverity.critical
          "Critical threat" "details" (some "1.2.3.4") none [] 7 = some (st', a) ∧
        ((st'.history.drop (AlertSystem.empty).history.length).filter
            fun b => b.atype == AlertType.ip_blocked).length = 1 ∧
        ∀ b ∈ st'.history.drop (AlertSystem.empty).history.length,
          b.atype = AlertType.ip_blocked → b.sourceIp = some "1.2.3.4" :=
  c3_critical_threat_auto_block AlertSystem.empty "Critical threat" "details" "1.2.3.4"
    none [] 7 (by decide)

/-- C9 (amended): `create_alert` derives the id solely from the millisecond
clock reading: the created alert carries id `"ALERT_" ++ ms` and is appended
to the history. -/
theorem c9_amended_id_time_derived (st : AlertSystem) (ty : AlertType)
    (sev : AlertSeverity) (title desc : String) (src tgt : Option String)
    (meta : List (String × String)) (nowMs : ℕ) (st' : AlertSystem) (a : Alert)
    (h : createAlert st ty sev title desc src tgt meta nowMs = some (st', a)) :
    a.id = "ALERT_" ++ toString nowMs ∧ a ∈ st'.history := by
  by_cases htrig : sev = AlertSeverity.critical ∧
      (truthySource src && (ty == AlertType.threat_detected)) = true
  · obtain ⟨hs, hg⟩ := htrig
    rw [Bool.and_eq_true] at hg
    obtain ⟨hsrc, hty⟩ := hg
    obtain ⟨s, rfl⟩ : ∃ s, src = some s := by
      cases src with
      | none => simp [truthySource] at hsrc
      | some s => exact ⟨s, rfl⟩
    have hs' : s ≠ "" := by simpa [truthySource] using hsrc
    have hty' : ty = AlertType.threat_detected := by simpa using hty
    subst hs hty'
    rw [createAlert, show (2 : ℕ) = 0 + 2 from rfl,
      createAlertAux_trigger 0 st title desc s tgt meta nowMs hs'] at h
    obtain ⟨hst, ha⟩ := Prod.mk.injEq .. ▸ Option.some.injEq .. ▸ h
    subst hst ha
    exact ⟨rfl, by simp [storeAlert]⟩
  · have hng : sev = AlertSeverity.critical →
        (truthySource src && (ty == AlertType.threat_detected)) = false := by
      intro hs
      by_contra hb
      exact htrig ⟨hs, by simpa using hb⟩
    rw [createAlert, show (2 : ℕ) = 1 + 1 from rfl,
      createAlertAux_simple 1 st ty sev title desc src tgt meta nowMs hng] at h
    obtain ⟨hst, ha⟩ := Prod.mk.injEq .. ▸ Option.some.injEq .. ▸ h
    subst hst ha
    exact ⟨rfl, by simp [storeAlert]⟩

/-- Witness for C9 (amended): a concrete create at millisecond 7. -/
theorem c9_amended_id_time_derived_witness :
    (⟨"ALERT_7", AlertType.system_anomaly, AlertSeverity.low, "t", "d",
        none, none, [], false, false⟩ : Alert).id = "ALERT_" ++ toString 7 ∧
      (⟨"ALERT_7", AlertType.system_anomaly, AlertSeverity.low, "t", "d",
        none, none, [], false, false⟩ : Alert) ∈
        (storeAlert AlertSystem.empty
          ⟨"ALERT_7", AlertType.system_anomaly, AlertSeverity.low, "t", "d",
            none, none, [], false, false⟩).history :=
  c9_amended_id_time_derived AlertSystem.empty AlertType.system_anomaly AlertSeverity.low
    "t" "d" none none [] 7
    (storeAlert AlertSystem.empty
      ⟨"ALERT_7", AlertType.system_anomaly, AlertSeverity.low, "t", "d",
        none, none, [], false, false⟩)
    ⟨"ALERT_7", AlertType.system_anomaly, AlertSeverity.low, "t", "d",
      none, none, [], false, false⟩
    rfl

/-- C9 counterexample: two distinct `create_alert` calls whose millisecond
clock readings coincide receive the same id `"ALERT_5"` — ids are not unique. -/
theorem c9_counterexample :
    (createAlert AlertSystem.empty AlertType.system_anomaly AlertSeverity.low "Alert A"
        "first" none none [] 5).map (fun r => r.2.id) = some "ALERT_5" ∧
      ((createAlert AlertSystem.empty AlertType.system_anomaly AlertSeverity.low "Alert A"
        "first" none none [] 5).bind fun r =>
        (createAlert r.1 AlertType.security_breach AlertSeverity.medium "Alert B" "second"
          none none [] 5).map fun r2 => r2.2.id) = some "ALERT_5" :=
  ⟨rfl, rfl⟩

/-- Every finding produced by the signature pattern loop carries confidence
0.9. -/
theorem sigThreats_confidence (pstr : List Char) (srcIp dstIp : String) :
    ∀ t ∈ sigThreats pstr srcIp dstIp, t.confidence = 9/10 := by
  intro t ht
  rw [sigThreats, List.mem_filterMap] at ht
  obtain ⟨r, _, hr⟩ := ht
  split at hr
  · cases hr
    rfl
  · cases hr

/-- No behavioral finding carries confidence 0.9 (flooding is 0.8, scanning
0.7). -/
theorem behavior_confidence (det : Detector) (srcIp dstIp : String)
    (srcPort dstPort : ℕ) (now : ℤ) :
    ∀ t ∈ (analyzeBehavior det srcIp dstIp srcPort dstPort now).1,
      t.confidence ≠ 9/10 := by
  intro t ht
  rw [analyzeBehavior_fst, List.mem_append] at ht
  rcases ht with ht | ht
  · split at ht
    · rw [List.mem_singleton] at ht
      subst ht
      show (8 : ℚ)/10 ≠ 9/10
      norm_num
    · simp at ht
  · split at ht
    · rw [List.mem_singleton] at ht
      subst ht
      show (7 : ℚ)/10 ≠ 9/10
      norm_num
    · simp at ht

/-- No reputation finding carries confidence 0.9 (malicious is 0.95,
suspicious 0.6). -/
theorem reputation_confidence (det : Detector) (srcIp dstIp : String) :
    ∀ t ∈ checkIpReputation det srcIp dstIp, t.confidence ≠ 9/10 := by
  intro t ht
  rw [checkIpReputation, List.mem_append] at ht
  rcases ht with ht | ht
  · split at ht
    · rw [List.mem_singleton] at ht
      subst ht
      show (95 : ℚ)/100 ≠ 9/10
      norm_num
    · simp at ht
  · split at ht
    · rw [List.mem_singleton] at ht
      subst ht
      show (6 : ℚ)/10 ≠ 9/10
      norm_num
    · simp at ht

/-- The score accumulated by the pattern loop equals the severity-score sum
over the signature findings it appends. -/
theorem sigScore_eq_sigThreats_sum (pstr : List Char) (srcIp dstIp : String) :
    sigScore pstr = ((sigThreats pstr srcIp dstIp).map fun t => severityScore t.severity).sum := by
  rw [sigScore, sigThreats]
  induction threatPatterns with
  | nil => rfl
  | cons r rest ih =>
    by_cases hm : r.matcher pstr
    · simp [List.filter_cons, List.filterMap_cons, hm, ih]
    · simp [List.filter_cons, List.filterMap_cons, hm, ih]

/-- C1 (amended): the risk score equals the clamped sum of the severity
scores of the signature findings only — exactly those findings of confidence
0.9; behavioral and reputation findings never contribute to the score. -/
theorem c1_amended_risk_is_signature_sum (det : Detector) (packet : List Char)
    (srcIp dstIp : String) (srcPort dstPort : ℕ) (now : ℤ) :
    (analyzePacket det packet srcIp dstIp srcPort dstPort now).1.riskScore
      = min ((((analyzePacket det packet srcIp dstIp srcPort dstPort now).1.threats.filter
          fun t => decide (t.confidence = (9/10 : ℚ))).map
            fun t => severityScore t.severity).sum) 100 := by
  have hthreats : (analyzePacket det packet srcIp dstIp srcPort dstPort now).1.threats
      = (sigThreats (packet.map Char.toLower) srcIp dstIp ++
          (analyzeBehavior det srcIp dstIp srcPort dstPort now).1) ++
        checkIpReputation (analyzeBehavior det srcIp dstIp srcPort dstPort now).2
          srcIp dstIp := rfl
  have hsig : (sigThreats (packet.map Char.toLower) srcIp dstIp).filter
      (fun t => decide (t.confidence = (9/10 : ℚ)))
      = sigThreats (packet.map Char.toLower) srcIp dstIp :=
    List.filter_eq_self.mpr fun t ht => by
      rw [decide_eq_true_eq]
      exact sigThreats_confidence _ _ _ t ht
  have hbehav : ((analyzeBehavior det srcIp dstIp srcPort dstPort now).1.filter
      fun t => decide (t.confidence = (9/10 : ℚ))) = [] := by
    rw [List.filter_eq_nil_iff]
    intro t ht
    rw [decide_eq_true_eq]
    exact behavior_confidence det srcIp dstIp srcPort dstPort now t ht
  have hrep : ((checkIpReputation (analyzeBehavior det srcIp dstIp srcPort dstPort now).2
      srcIp dstIp).filter fun t => decide (t.confidence = (9/10 : ℚ))) = [] := by
    rw [List.filter_eq_nil_iff]
    intro t ht
    rw [decide_eq_true_eq]
    exact reputation_confidence _ srcIp dstIp t ht
  rw [hthreats, List.filter_append, List.filter_append, hsig, hbehav, hrep,
    List.append_nil, List.append_nil]
  rw [show (analyzePacket det packet srcIp dstIp srcPort dstPort now).1.riskScore
    = min (sigScore (packet.map Char.toLower)) 100 from rfl]
  rw [sigScore_eq_sigThreats_sum (packet.map Char.toLower) srcIp dstIp]

/-- C1 counterexample: an empty payload from a known-malicious source yields
exactly one finding (the reputation finding, severity critical, score 100),
yet the returned risk score is 0 — the score sums signature findings only,
not all findings. -/
theorem c1_counterexample :
    (analyzePacket ⟨["9.9.9.9"], fun _ => 0, fun _ => []⟩ [] "9.9.9.9" "8.8.8.8"
        1 2 0).1.riskScore
      ≠ min (((analyzePacket ⟨["9.9.9.9"], fun _ => 0, fun _ => []⟩ [] "9.9.9.9" "8.8.8.8"
          1 2 0).1.threats.map fun t => severityScore t.severity).sum) 100 ∧
      (analyzePacket ⟨["9.9.9.9"], fun _ => 0, fun _ => []⟩ [] "9.9.9.9" "8.8.8.8"
        1 2 0).1.riskScore = 0 ∧
      min (((analyzePacket ⟨["9.9.9.9"], fun _ => 0, fun _ => []⟩ [] "9.9.9.9" "8.8.8.8"
          1 2 0).1.threats.map fun t => severityScore t.severity).sum) 100 = 100 := by
  refine ⟨?_, rfl, rfl⟩
  decide

/-- A position predicate that holds at the start of the list makes the
position search succeed. -/
theorem searchPos_of_holds (p : List Char → Bool) (l : List Char) (h : p l = true) :
    searchPos p l = true := by
  cases l with
  | nil => simpa [searchPos] using h
  | cons c rest => simp [searchPos, h]

/-- A position search succeeding on a suffix succeeds on the whole list. -/
theorem searchPos_append (p : List Char → Bool) (a l : List Char)
    (h : searchPos p l = true) : searchPos p (a ++ l) = true := by
  induction a with
  | nil => simpa using h
  | cons c a' ih => simp [searchPos, ih]

/-- A gap scan whose predicate holds at the current position succeeds. -/
theorem scanGapP_of_holds (p : List Char → Bool) (l : List Char) (h : p l = true) :
    scanGapP p l = true := by
  cases l with
  | nil => simpa [scanGapP] using h
  | cons c rest => simp [scanGapP, h]

/-- A gap scan may skip one non-newline character. -/
theorem scanGapP_cons_of_gap (p : List Char → Bool) (c : Char) (rest : List Char)
    (hc : c ≠ '\n') (h : scanGapP p rest = true) : scanGapP p (c :: rest) = true := by
  simp [scanGapP, h, bne_iff_ne, hc]

/-- A gap scan may skip any newline-free run before the predicate holds. -/
theorem scanGapP_append (p : List Char → Bool) (g r : List Char)
    (hg : ∀ c ∈ g, c ≠ '\n') (h : p r = true) : scanGapP p (g ++ r) = true := by
  induction g with
  | nil => simpa using scanGapP_of_holds p r h
  | cons c g' ih =>
    exact scanGapP_cons_of_gap p c (g' ++ r) (hg c (by simp))
      (ih fun x hx => hg x (by simp [hx]))

/-- Every list is a prefix of itself extended to the right, as `isPrefixOf`
computes it. -/
theorem isPrefixOf_append_self (k r : List Char) : k.isPrefixOf (k ++ r) = true := by
  induction k with
  | nil => simp [List.isPrefixOf]
  | cons c k' ih => simp [List.isPrefixOf, ih]

/-- The SQL-injection regex search succeeds on any text containing the
sample substring `"union select * from users"` — via the keyword `union`,
the newline-free gap `" select * "`, and the keyword `from`. -/
theorem sqlInjectionMatch_contains (a c : List Char) :
    sqlInjectionMatch (a ++ (sqlNeedle ++ c)) = true := by
  rw [sqlInjectionMatch, searchTwo]
  apply searchPos_append
  apply searchPos_of_holds
  rw [List.any_eq_true]
  refine ⟨"union", by simp, ?_⟩
  have hne : sqlNeedle ++ c
      = "union".toList ++ (" select * ".toList ++ ("from".toList ++ (" users".toList ++ c))) := by
    rw [show sqlNeedle
      = "union".toList ++ (" select * ".toList ++ ("from".toList ++ " users".toList)) from rfl]
    simp [List.append_assoc]
  rw [Bool.and_eq_true]
  constructor
  · rw [hne]
    exact isPrefixOf_append_self _ _
  · rw [hne, show ("union".toList ++
      (" select * ".toList ++ ("from".toList ++ (" users".toList ++ c)))).drop "union".length
      = " select * ".toList ++ ("from".toList ++ (" users".toList ++ c)) from
      List.drop_left _ _]
    apply scanGapP_append _ _ _ (by decide)
    rw [kwAt, List.any_eq_true]
    exact ⟨"from", by simp, isPrefixOf_append_self _ _⟩

/-- C8: any payload whose lower-cased decoded text contains the sample
SQL-injection substring yields a `sql_injection` finding with severity
critical and confidence 0.9. -/
theorem c8_sql_injection_detected (det : Detector) (packet : List Char)
    (srcIp dstIp : String) (srcPort dstPort : ℕ) (now : ℤ) (a c : List Char)
    (h : packet.map Char.toLower = a ++ (sqlNeedle ++ c)) :
    (⟨"sql_injection", "critical", "SQL injection attempt detected", srcIp, some dstIp,
        9/10⟩ : Threat) ∈
      (analyzePacket det packet srcIp dstIp srcPort dstPort now).1.threats := by
  have hmatch : sqlInjectionMatch (packet.map Char.toLower) = true := by
    rw [h]
    exact sqlInjectionMatch_contains a c
  show _ ∈ (sigThreats (packet.map Char.toLower) srcIp dstIp ++
      (analyzeBehavior det srcIp dstIp srcPort dstPort now).1) ++
    checkIpReputation (analyzeBehavior det srcIp dstIp srcPort dstPort now).2 srcIp dstIp
  apply List.mem_append_left
  apply List.mem_append_left
  rw [sigThreats, List.mem_filterMap]
  refine ⟨⟨"sql_injection", sqlInjectionMatch, "critical", "SQL injection attempt detected"⟩,
    ?_, ?_⟩
  · exact List.mem_cons_of_mem _ (List.mem_cons_of_mem _ (List.mem_cons_self _ _))
  · rw [if_pos hmatch]

/-- Witness for C8: the upper-case payload `"UNION SELECT * FROM USERS"`. -/
theorem c8_sql_injection_detected_witness :
    (⟨"sql_injection", "critical", "SQL injection attempt detected", "1.2.3.4",
        some "5.6.7.8", 9/10⟩ : Threat) ∈
      (analyzePacket ⟨[], fun _ => 0, fun _ => []⟩ "UNION SELECT * FROM USERS".toList
        "1.2.3.4" "5.6.7.8" 1 2 0).1.threats :=
  c8_sql_injection_detected ⟨[], fun _ => 0, fun _ => []⟩ "UNION SELECT * FROM USERS".toList
    "1.2.3.4" "5.6.7.8" 1 2 0 [] [] (by decide)

theorem padLen_pos (n : ℕ) : 1 ≤ padLen n := by
  rw [padLen]
  omega

theorem padLen_le (n : ℕ) : padLen n ≤ 16 := by
  rw [padLen]
  omega

theorem pkcs7Pad_length (msg : List ℕ) :
    (pkcs7Pad msg).length = msg.length + padLen msg.length := by
  simp [pkcs7Pad]

theorem pkcs7Pad_length_mod (msg : List ℕ) : (pkcs7Pad msg).length % 16 = 0 := by
  rw [pkcs7Pad_length, padLen]
  omega

theorem pkcs7Pad_ne_nil (msg : List ℕ) : pkcs7Pad msg ≠ [] := by
  intro h
  have h2 := pkcs7Pad_length msg
  have h3 := padLen_pos msg.length
  rw [h] at h2
  simp at h2
  omega

/-- PKCS7 unpadding undoes PKCS7 padding. -/
theorem pkcs7Unpad_pkcs7Pad (msg : List ℕ) : pkcs7Unpad (pkcs7Pad msg) = some msg := by
  have hk1 := padLen_pos msg.length
  have hk16 := padLen_le msg.length
  have hlast : (pkcs7Pad msg).getLast? = some (padLen msg.length) := by
    rw [pkcs7Pad, List.getLast?_append_of_ne_nil]
    · cases hx : padLen msg.length with
      | zero => omega
      | succ m => simp [List.getLast?_replicate]
    · intro hrep
      have := congrArg List.length hrep
      simp at this
      omega
  have hlen := pkcs7Pad_length msg
  have hdrop : (pkcs7Pad msg).drop ((pkcs7Pad msg).length - padLen msg.length)
      = List.replicate (padLen msg.length) (padLen msg.length) := by
    rw [hlen, Nat.add_sub_cancel, pkcs7Pad, List.drop_left]
  have htake : (pkcs7Pad msg).take ((pkcs7Pad msg).length - padLen msg.length) = msg := by
    rw [hlen, Nat.add_sub_cancel, pkcs7Pad, List.take_left]
  rw [pkcs7Unpad, hlast]
  show (if 1 ≤ padLen msg.length ∧ padLen msg.length ≤ 16 ∧
      padLen msg.length ≤ (pkcs7Pad msg).length ∧
      ((List.drop ((pkcs7Pad msg).length - padLen msg.length) (pkcs7Pad msg)).all
        fun x => decide (x = padLen msg.length)) = true then
    some (List.take ((pkcs7Pad msg).length - padLen msg.length) (pkcs7Pad msg))
  else none) = some msg
  rw [if_pos]
  · rw [htake]
  · refine ⟨hk1, hk16, by omega, ?_⟩
    rw [hdrop, List.all_eq_true]
    intro x hx
    rw [List.mem_replicate] at hx
    simp [hx.2]

theorem chunk16_nil : chunk16 [] = [] := by
  rw [chunk16]
  rfl

theorem chunk16_cons (l : List ℕ) (h : l ≠ []) :
    chunk16 l = l.take 16 :: chunk16 (l.drop 16) := by
  rw [chunk16]
  simp [h]

theorem flatten_chunk16_aux :
    ∀ (n : ℕ) (l : List ℕ), l.length ≤ n → (chunk16 l).flatten = l := by
  intro n
  induction n with
  | zero =>
    intro l hl
    have h : l = [] := List.eq_nil_of_length_eq_zero (Nat.le_zero.mp hl)
    subst h
    rw [chunk16_nil]
    rfl
  | succ n ih =>
    intro l hl
    by_cases h : l = []
    · subst h
      rw [chunk16_nil]
      rfl
    · rw [chunk16_cons l h, List.flatten_cons,
        ih (l.drop 16) (by
          have h1 : 0 < l.length := List.length_pos.mpr h
          simp only [List.length_drop]
          omega)]
      exact List.take_append_drop 16 l

/-- Re-flattening the 16-byte blocks of a byte string returns it. -/
theorem flatten_chunk16 (l : List ℕ) : (chunk16 l).flatten = l :=
  flatten_chunk16_aux l.length l le_rfl

theorem chunk16_blocks_len_aux :
    ∀ (n : ℕ) (l : List ℕ), l.length ≤ n → l.length % 16 = 0 →
      ∀ b ∈ chunk16 l, b.length = 16 := by
  intro n
  induction n with
  | zero =>
    intro l hl _ b hb
    have h : l = [] := List.eq_nil_of_length_eq_zero (Nat.le_zero.mp hl)
    subst h
    rw [chunk16_nil] at hb
    simp at hb
  | succ n ih =>
    intro l hl hm b hb
    by_cases h : l = []
    · subst h
      rw [chunk16_nil] at hb
      simp at hb
    · have h1 : 0 < l.length := List.length_pos.mpr h
      have h16 : 16 ≤ l.length := by omega
      rw [chunk16_cons l h, List.mem_cons] at hb
      rcases hb with hb | hb
      · rw [hb, List.length_take]
        omega
      · exact ih (l.drop 16)
          (by simp only [List.length_drop]; omega)
          (by simp only [List.length_drop]; omega) b hb

/-- Splitting a byte string into blocks inverts flattening a sequence of
16-byte blocks. -/
theorem chunk16_flatten_blocks :
    ∀ (bs : List (List ℕ)), (∀ b ∈ bs, b.length = 16) → chunk16 bs.flatten = bs := by
  intro bs
  induction bs with
  | nil =>
    intro _
    rw [List.flatten_nil, chunk16_nil]
  | cons b rest ih =>
    intro h
    have hb : b.length = 16 := h b (by simp)
    have hbne : b ≠ [] := by
      intro hh
      rw [hh] at hb
      simp at hb
    have hne : b ++ rest.flatten ≠ [] := by
      intro hh
      rcases List.append_eq_nil.mp hh with ⟨h1, _⟩
      exact hbne h1
    rw [List.flatten_cons, chunk16_cons _ hne,
      show (b ++ rest.flatten).take 16 = b from by rw [← hb]; exact List.take_left _ _,
      show (b ++ rest.flatten).drop 16 = rest.flatten from by rw [← hb]; exact List.drop_left _ _,
      ih fun x hx => h x (by simp [hx])]

theorem length_xorB (a b : List ℕ) : (xorB a b).length = min a.length b.length := by
  simp [xorB]

/-- Xoring the same block twice cancels (pointwise, for equal lengths). -/
theorem xorB_cancel (a : List ℕ) :
    ∀ b : List ℕ, a.length = b.length → xorB a (xorB a b) = b := by
  induction a with
  | nil =>
    intro b hb
    cases b with
    | nil => rfl
    | cons y ys => simp at hb
  | cons x xs ih =>
    intro b hb
    cases b with
    | nil => simp at hb
    | cons y ys =>
      rw [show xorB (x :: xs) (y :: ys) = (x ^^^ y) :: xorB xs ys from rfl,
        show xorB (x :: xs) ((x ^^^ y) :: xorB xs ys)
          = (x ^^^ (x ^^^ y)) :: xorB xs (xorB xs ys) from rfl,
        Nat.xor_cancel_left, ih ys (by simpa using hb)]

theorem cbcEnc_length (E : List ℕ → List ℕ) :
    ∀ (bs : List (List ℕ)) (prev : List ℕ), (cbcEnc E prev bs).length = bs.length := by
  intro bs
  induction bs with
  | nil => intro prev; rfl
  | cons b rest ih =>
    intro prev
    rw [show cbcEnc E prev (b :: rest)
      = E (xorB prev b) :: cbcEnc E (E (xorB prev b)) rest from rfl]
    simp [ih]

/-- Under a 16-byte-preserving block cipher, CBC ciphertext blocks are
16 bytes. -/
theorem cbcEnc_block_len (E : List ℕ → List ℕ)
    (hE16 : ∀ b, b.length = 16 → (E b).length = 16) :
    ∀ (bs : List (List ℕ)) (prev : List ℕ), prev.length = 16 →
      (∀ b ∈ bs, b.length = 16) → ∀ cb ∈ cbcEnc E prev bs, cb.length = 16 := by
  intro bs
  induction bs with
  | nil =>
    intro prev _ _ cb hcb
    simp [cbcEnc] at hcb
  | cons b rest ih =>
    intro prev hprev hbs cb hcb
    rw [show cbcEnc E prev (b :: rest)
      = E (xorB prev b) :: cbcEnc E (E (xorB prev b)) rest from rfl,
      List.mem_cons] at hcb
    have hc : (E (xorB prev b)).length = 16 := by
      apply hE16
      rw [length_xorB, hprev, hbs b (by simp)]
      simp
    rcases hcb with hcb | hcb
    · rw [hcb]
      exact hc
    · exact ih (E (xorB prev b)) hc (fun x hx => hbs x (by simp [hx])) cb hcb

/-- CBC decryption with the block-cipher inverse undoes CBC encryption. -/
theorem cbcDec_cbcEnc (E D : List ℕ → List ℕ) (hED : ∀ b, D (E b) = b)
    (hE16 : ∀ b, b.length = 16 → (E b).length = 16) :
    ∀ (bs : List (List ℕ)) (prev : List ℕ), prev.length = 16 →
      (∀ b ∈ bs, b.length = 16) → cbcDec D prev (cbcEnc E prev bs) = bs := by
  intro bs
  induction bs with
  | nil => intro prev _ _; rfl
  | cons b rest ih =>
    intro prev hprev hbs
    rw [show cbcEnc E prev (b :: rest)
      = E (xorB prev b) :: cbcEnc E (E (xorB prev b)) rest from rfl,
      show cbcDec D prev (E (xorB prev b) :: cbcEnc E (E (xorB prev b)) rest)
        = xorB prev (D (E (xorB prev b)))
          :: cbcDec D (E (xorB prev b)) (cbcEnc E (E (xorB prev b)) rest) from rfl,
      hED, xorB_cancel prev b (by rw [hprev, hbs b (by simp)]),
      ih (E (xorB prev b))
        (by
          apply hE16
          rw [length_xorB, hprev, hbs b (by simp)]
          simp)
        (fun x hx => hbs x (by simp [hx]))]

theorem flatten_len_blocks :
    ∀ (bs : List (List ℕ)), (∀ b ∈ bs, b.length = 16) →
      bs.flatten.length = 16 * bs.length := by
  intro bs
  induction bs with
  | nil => intro _; rfl
  | cons b rest ih =>
    intro h
    rw [List.flatten_cons, List.length_append, h b (by simp),
      ih fun x hx => h x (by simp [hx])]
    simp [Nat.mul_add, Nat.mul_comm]
    omega

/-- Parsing a well-formed Fernet token: the length, MAC and version checks
pass and decryption proceeds on the embedded IV and ciphertext. -/
theorem fernetDecrypt_frame (D mac : List ℕ → List ℕ) (hmac : ∀ x, (mac x).length = 32)
    (ts iv ct : List ℕ) (hts : ts.length = 8) (hiv : iv.length = 16)
    (hmod : ct.length % 16 = 0) (hpos : ct.length ≠ 0) :
    fernetDecrypt D mac ((128 :: (ts ++ (iv ++ ct))) ++ mac (128 :: (ts ++ (iv ++ ct))))
      = pkcs7Unpad (cbcDec D iv (chunk16 ct)).flatten := by
  have h16 : 16 ≤ ct.length := by omega
  have hblen : ((128 : ℕ) :: (ts ++ (iv ++ ct))).length = 25 + ct.length := by
    simp [hts, hiv]
    omega
  have htok : (((128 : ℕ) :: (ts ++ (iv ++ ct)))
      ++ mac ((128 : ℕ) :: (ts ++ (iv ++ ct)))).length = (25 + ct.length) + 32 := by
    rw [List.length_append, hblen, hmac]
  have hsub : (((128 : ℕ) :: (ts ++ (iv ++ ct)))
      ++ mac ((128 : ℕ) :: (ts ++ (iv ++ ct)))).length - 32
      = ((128 : ℕ) :: (ts ++ (iv ++ ct))).length := by
    rw [htok, hblen]
    omega
  have hdrop9 : ((128 : ℕ) :: (ts ++ (iv ++ ct))).drop 9 = iv ++ ct := by
    rw [show ((128 : ℕ) :: (ts ++ (iv ++ ct))).drop 9 = (ts ++ (iv ++ ct)).drop 8 from rfl,
      ← hts, List.drop_left]
  have htake16 : (iv ++ ct).take 16 = iv := by
    rw [← hiv, List.take_left]
  have hdrop25 : ((128 : ℕ) :: (ts ++ (iv ++ ct))).drop 25 = ct := by
    rw [show ((128 : ℕ) :: (ts ++ (iv ++ ct))).drop 25 = (ts ++ (iv ++ ct)).drop 24 from rfl,
      ← List.append_assoc, show (24 : ℕ) = (ts ++ iv).length by simp [hts, hiv],
      List.drop_left]
  simp only [fernetDecrypt]
  rw [if_neg (by rw [htok]; omega)]
  rw [hsub, List.take_left, List.drop_left]
  rw [if_neg (fun hne => hne rfl)]
  rw [if_neg (fun hne => hne rfl)]
  rw [hdrop9, htake16, hdrop25]
  rw [if_neg fun h => h.elim (fun h1 => h1 hmod) hpos]

/-- C7: decrypting the encryption of any byte content under the same key
yields the content back — the Fernet round-trip law, with the AES block
permutation abstracted by the inverse pair `E`/`D` and the HMAC by `mac`. -/
theorem c7_fernet_roundtrip (E D mac : List ℕ → List ℕ)
    (hED : ∀ b, D (E b) = b) (hE16 : ∀ b, b.length = 16 → (E b).length = 16)
    (hmac : ∀ x, (mac x).length = 32) (ts iv : List ℕ) (hts : ts.length = 8)
    (hiv : iv.length = 16) (msg : List ℕ) :
    fernetDecrypt D mac (fernetEncrypt E mac ts iv msg) = some msg := by
  have hblocks : ∀ b ∈ chunk16 (pkcs7Pad msg), b.length = 16 :=
    chunk16_blocks_len_aux (pkcs7Pad msg).length _ le_rfl (pkcs7Pad_length_mod msg)
  have hcblocks : ∀ cb ∈ cbcEnc E iv (chunk16 (pkcs7Pad msg)), cb.length = 16 :=
    cbcEnc_block_len E hE16 _ iv hiv hblocks
  have hctlen : (cbcEnc E iv (chunk16 (pkcs7Pad msg))).flatten.length
      = 16 * (chunk16 (pkcs7Pad msg)).length := by
    rw [flatten_len_blocks _ hcblocks, cbcEnc_length]
  have hchne : chunk16 (pkcs7Pad msg) ≠ [] := by
    rw [chunk16_cons _ (pkcs7Pad_ne_nil msg)]
    simp
  have hchpos : 0 < (chunk16 (pkcs7Pad msg)).length := List.length_pos.mpr hchne
  have hctmod : (cbcEnc E iv (chunk16 (pkcs7Pad msg))).flatten.length % 16 = 0 := by
    rw [hctlen]
    omega
  have hctpos : (cbcEnc E iv (chunk16 (pkcs7Pad msg))).flatten.length ≠ 0 := by
    rw [hctlen]
    omega
  rw [show fernetEncrypt E mac ts iv msg
      = (128 :: (ts ++ (iv ++ (cbcEnc E iv (chunk16 (pkcs7Pad msg))).flatten)))
        ++ mac (128 :: (ts ++ (iv ++ (cbcEnc E iv (chunk16 (pkcs7Pad msg))).flatten)))
    from rfl]
  rw [fernetDecrypt_frame D mac hmac ts iv _ hts hiv hctmod hctpos]
  rw [chunk16_flatten_blocks _ hcblocks,
    cbcDec_cbcEnc E D hED hE16 _ iv hiv hblocks,
    flatten_chunk16]
  exact pkcs7Unpad_pkcs7Pad msg

/-- Witness for C7: identity block cipher, constant MAC, zero timestamp and
IV, content `[1, 2, 3]`. -/
theorem c7_fernet_roundtrip_witness :
    fernetDecrypt (fun x => x) (fun _ => List.replicate 32 0)
        (fernetEncrypt (fun x => x) (fun _ => List.replicate 32 0)
          (List.replicate 8 0) (List.replicate 16 0) [1, 2, 3])
      = some [1, 2, 3] :=
  c7_fernet_roundtrip (fun x => x) (fun x => x) (fun _ => List.replicate 32 0)
    (fun _ => rfl) (fun _ h => h) (fun _ => by simp)
    (List.replicate 8 0) (List.replicate 16 0) (by simp) (by simp) [1, 2, 3]

end BYJ
